import Mathlib

/-!
Verification of the anchored-homogeneous-point (AHP) landmark math of
`src/include/rtslam/landmarkAnchoredHomogeneousPoint.hpp`.

The header dispatches every operation to the `landmarkAHP::` /
`quaternion` utilities of `ahpTools.hpp` and `quatTools.hpp`, which are
not part of the available sources; those utilities are therefore
modelled here from the specification and from the formulas documented in
the header itself ("R'(q) * ( m - (t - p0) * rho )",
"AHP = [ t ; R(q) * v ; rho * norm(v) ]", "p3 = p0 + m/rho").
Real scalars model the C++ `double`s; exact equalities proved here imply
every stated numerical tolerance.
-/

noncomputable section

/-- A 3-vector of real scalars (models the numeric `vec3`). -/
@[ext]
structure Vec3 where
  x : ℝ
  y : ℝ
  z : ℝ

/-- A quaternion in scalar-first order `(w, x, y, z)` (models `quat`). -/
@[ext]
structure Quat where
  w : ℝ
  x : ℝ
  y : ℝ
  z : ℝ

/-- A rigid frame: position `t` plus orientation quaternion `q` (7 scalars). -/
@[ext]
structure Frame where
  t : Vec3
  q : Quat

/-- An anchored homogeneous point `[p0(3), m(3), rho(1)]` (7 scalars). -/
@[ext]
structure Ahp where
  p0 : Vec3
  m : Vec3
  rho : ℝ

instance : Zero Vec3 := ⟨⟨0, 0, 0⟩⟩

instance : Add Vec3 := ⟨fun a b => ⟨a.x + b.x, a.y + b.y, a.z + b.z⟩⟩

instance : Sub Vec3 := ⟨fun a b => ⟨a.x - b.x, a.y - b.y, a.z - b.z⟩⟩

instance : SMul ℝ Vec3 := ⟨fun c v => ⟨c * v.x, c * v.y, c * v.z⟩⟩

@[simp] lemma Vec3.add_x (a b : Vec3) : (a + b).x = a.x + b.x := rfl

@[simp] lemma Vec3.add_y (a b : Vec3) : (a + b).y = a.y + b.y := rfl

@[simp] lemma Vec3.add_z (a b : Vec3) : (a + b).z = a.z + b.z := rfl

@[simp] lemma Vec3.sub_x (a b : Vec3) : (a - b).x = a.x - b.x := rfl

@[simp] lemma Vec3.sub_y (a b : Vec3) : (a - b).y = a.y - b.y := rfl

@[simp] lemma Vec3.sub_z (a b : Vec3) : (a - b).z = a.z - b.z := rfl

@[simp] lemma Vec3.smul_x (c : ℝ) (v : Vec3) : (c • v).x = c * v.x := rfl

@[simp] lemma Vec3.smul_y (c : ℝ) (v : Vec3) : (c • v).y = c * v.y := rfl

@[simp] lemma Vec3.smul_z (c : ℝ) (v : Vec3) : (c • v).z = c * v.z := rfl

@[simp] lemma Vec3.zero_x : (0 : Vec3).x = 0 := rfl

@[simp] lemma Vec3.zero_y : (0 : Vec3).y = 0 := rfl

@[simp] lemma Vec3.zero_z : (0 : Vec3).z = 0 := rfl

/-- Euclidean norm of a 3-vector (`norm(v)` of the numeric library). -/
def norm3 (v : Vec3) : ℝ := Real.sqrt (v.x ^ 2 + v.y ^ 2 + v.z ^ 2)

/-- Hamilton product of two scalar-first quaternions (`quaternion` utility). -/
def qProd (a b : Quat) : Quat :=
  ⟨a.w * b.w - a.x * b.x - a.y * b.y - a.z * b.z,
   a.w * b.x + a.x * b.w + a.y * b.z - a.z * b.y,
   a.w * b.y - a.x * b.z + a.y * b.w + a.z * b.x,
   a.w * b.z + a.x * b.y - a.y * b.x + a.z * b.w⟩

/-- Quaternion conjugate `q* = (w, -x, -y, -z)`. -/
def qConj (q : Quat) : Quat := ⟨q.w, -q.x, -q.y, -q.z⟩

/-- Squared quaternion norm `w^2 + x^2 + y^2 + z^2`. -/
def qnorm2 (q : Quat) : ℝ := q.w ^ 2 + q.x ^ 2 + q.y ^ 2 + q.z ^ 2

/-- Modelled from the spec: the `quatTools.hpp` vector rotation (absent from
src/), computed as the vector part of the quaternion chain `q ⊗ (0,v) ⊗ q*`. -/
def qRotV (q : Quat) (v : Vec3) : Vec3 :=
  let p := qProd (qProd q ⟨0, v.x, v.y, v.z⟩) (qConj q)
  ⟨p.x, p.y, p.z⟩

/-- Modelled from the spec: the inverse rotation `R'(q)·v` of `quatTools.hpp`
(absent from src/), computed by rotating with the conjugate quaternion. -/
def qRotVInv (q : Quat) (v : Vec3) : Vec3 := qRotV (qConj q) v

/-- The rotation matrix `R(q)` applied to a vector, written out entrywise;
this is the matrix form the specification states its formulas with. -/
def q2Rv (q : Quat) (v : Vec3) : Vec3 :=
  ⟨(q.w ^ 2 + q.x ^ 2 - q.y ^ 2 - q.z ^ 2) * v.x
     + 2 * (q.x * q.y - q.w * q.z) * v.y + 2 * (q.x * q.z + q.w * q.y) * v.z,
   2 * (q.x * q.y + q.w * q.z) * v.x
     + (q.w ^ 2 - q.x ^ 2 + q.y ^ 2 - q.z ^ 2) * v.y + 2 * (q.y * q.z - q.w * q.x) * v.z,
   2 * (q.x * q.z - q.w * q.y) * v.x
     + 2 * (q.y * q.z + q.w * q.x) * v.y + (q.w ^ 2 - q.x ^ 2 - q.y ^ 2 + q.z ^ 2) * v.z⟩

/-- The transposed rotation matrix `Rᵗ(q)` applied to a vector, written out
entrywise; the spec's `toBearingOnlyFrame` formula uses this form. -/
def q2RTv (q : Quat) (v : Vec3) : Vec3 :=
  ⟨(q.w ^ 2 + q.x ^ 2 - q.y ^ 2 - q.z ^ 2) * v.x
     + 2 * (q.x * q.y + q.w * q.z) * v.y + 2 * (q.x * q.z - q.w * q.y) * v.z,
   2 * (q.x * q.y - q.w * q.z) * v.x
     + (q.w ^ 2 - q.x ^ 2 + q.y ^ 2 - q.z ^ 2) * v.y + 2 * (q.y * q.z + q.w * q.x) * v.z,
   2 * (q.x * q.z + q.w * q.y) * v.x
     + 2 * (q.y * q.z - q.w * q.x) * v.y + (q.w ^ 2 - q.x ^ 2 - q.y ^ 2 + q.z ^ 2) * v.z⟩

/-- The quaternion-product rotation agrees with the rotation-matrix form. -/
lemma qRotV_eq_q2Rv (q : Quat) (v : Vec3) : qRotV q v = q2Rv q v := by
  ext <;> simp [qRotV, q2Rv, qProd, qConj] <;> ring

/-- The conjugate-quaternion rotation agrees with the transposed matrix form. -/
lemma qRotVInv_eq_q2RTv (q : Quat) (v : Vec3) : qRotVInv q v = q2RTv q v := by
  ext <;> simp [qRotVInv, qRotV, q2RTv, qProd, qConj] <;> ring

/-- Rotating and then inversely rotating scales by the 4th power of the norm. -/
lemma qRotVInv_qRotV (q : Quat) (v : Vec3) :
    qRotVInv q (qRotV q v) = (qnorm2 q ^ 2) • v := by
  ext <;> simp [qRotVInv, qRotV, qProd, qConj, qnorm2] <;> ring

/-- The identity quaternion `(1,0,0,0)`. -/
def qId : Quat := ⟨1, 0, 0, 0⟩

/-- The identity frame `t = [0,0,0]`, `q = [1,0,0,0]`. -/
def idFrame : Frame := ⟨⟨0, 0, 0⟩, qId⟩

/-- Modelled from the spec: `landmarkAHP::fromFrame` of `ahpTools.hpp`
(absent from src/): re-anchor an AHP expressed in frame `F` into the global
frame, rotating anchor and direction by `F.q` and translating the anchor. -/
def landmarkAHP.fromFrame (F : Frame) (l : Ahp) : Ahp :=
  ⟨F.t + qRotV F.q l.p0, qRotV F.q l.m, l.rho⟩

/-- Modelled from the spec: `landmarkAHP::toFrame` of `ahpTools.hpp`
(absent from src/): the exact inverse of `fromFrame` for the same frame. -/
def landmarkAHP.toFrame (F : Frame) (l : Ahp) : Ahp :=
  ⟨qRotVInv F.q (l.p0 - F.t), qRotVInv F.q l.m, l.rho⟩

/-- Claim C1: for every frame `F` and every AHP state `x` with `rho > 0`
and a unit orientation quaternion, `toFrame (F, fromFrame (F, x)) = x`
exactly (hence within the stated `1e-9` absolute tolerance). -/
theorem toFrame_fromFrame_roundtrip (F : Frame) (l : Ahp)
    (hq : qnorm2 F.q = 1) (_hrho : 0 < l.rho) :
    landmarkAHP.toFrame F (landmarkAHP.fromFrame F l) = l := by
  have h1 : qRotVInv F.q (F.t + qRotV F.q l.p0 - F.t) = qRotVInv F.q (qRotV F.q l.p0) := by
    congr 1
    ext <;> simp
  ext <;>
    simp [landmarkAHP.toFrame, landmarkAHP.fromFrame, h1, qRotVInv_qRotV, hq]

/-- Witness for C1 at the identity frame and the state `[0,0,0, 0,0,1, 1/2]`. -/
theorem toFrame_fromFrame_roundtrip_witness :
    qnorm2 idFrame.q = 1 ∧ (0 : ℝ) < 1 / 2 ∧
      landmarkAHP.toFrame idFrame
        (landmarkAHP.fromFrame idFrame ⟨⟨0, 0, 0⟩, ⟨0, 0, 1⟩, 1 / 2⟩)
        = ⟨⟨0, 0, 0⟩, ⟨0, 0, 1⟩, 1 / 2⟩ :=
  ⟨by norm_num [qnorm2, idFrame, qId], by norm_num,
    toFrame_fromFrame_roundtrip idFrame ⟨⟨0, 0, 0⟩, ⟨0, 0, 1⟩, 1 / 2⟩
      (by norm_num [qnorm2, idFrame, qId]) (by norm_num)⟩

/-- The raw Euclidean-conversion formula `p3 = p0 + m/rho`
("p3 = p0 + m/rho" of the header's documentation, line 105 region). -/
def ahp2eucVal (l : Ahp) : Vec3 :=
  ⟨l.p0.x + l.m.x / l.rho, l.p0.y + l.m.y / l.rho, l.p0.z + l.m.z / l.rho⟩

/-- Modelled from the spec: `landmarkAHP::ahp2euc` behind the member
`toEuclidean` (implementation absent from src/): returns `p0 + m/rho`, and
signals the `SingularDepth` failure distinctly (here `none`) when `rho = 0`
instead of folding it into a finite value. -/
def ahp2euc (l : Ahp) : Option Vec3 :=
  if l.rho = 0 then none else some (ahp2eucVal l)

/-- Modelled from the spec: `landmarkAHP::toBearingOnlyFrame` of
`ahpTools.hpp` (absent from src/), per the header's documented chain
`R'(q) * ( m - (t - p0) * rho )`. -/
def landmarkAHP.toBearingOnlyFrame (s : Frame) (l : Ahp) : Vec3 :=
  qRotVInv s.q (l.m - l.rho • (s.t - l.p0))

/-- Modelled from the spec: the `toBearingOnlyFrame` overload that also
recovers the inverse distance `rho / norm(m - (t - p0)*rho)` (absent from
src/). -/
def landmarkAHP.toBearingOnlyFrameID (s : Frame) (l : Ahp) : Vec3 × ℝ :=
  (qRotVInv s.q (l.m - l.rho • (s.t - l.p0)),
   l.rho / norm3 (l.m - l.rho • (s.t - l.p0)))

/-- Modelled from the spec: `landmarkAHP::fromBearingOnlyFrame` of
`ahpTools.hpp` (absent from src/), per the header's documented formula
`AHP = [ t ; R(q) * v ; rho * norm(v) ]`. -/
def landmarkAHP.fromBearingOnlyFrame (s : Frame) (v : Vec3) (rho : ℝ) : Ahp :=
  ⟨s.t, qRotV s.q v, rho * norm3 v⟩

/-- Claim C2: `fromBearingOnlyFrame (s, v, rho)` returns
`[t_s ; R(q_s)·v ; rho·norm v]` for every sensor frame and bearing, and at
the identity frame with `v = [0,0,1]`, `rho = 1/2` it returns
`[0,0,0, 0,0,1, 1/2]`. -/
theorem fromBearingOnlyFrame_spec :
    (∀ (s : Frame) (v : Vec3) (rho : ℝ),
        landmarkAHP.fromBearingOnlyFrame s v rho = ⟨s.t, q2Rv s.q v, rho * norm3 v⟩) ∧
      landmarkAHP.fromBearingOnlyFrame idFrame ⟨0, 0, 1⟩ (1 / 2)
        = ⟨⟨0, 0, 0⟩, ⟨0, 0, 1⟩, 1 / 2⟩ := by
  constructor
  · intro s v rho
    ext <;> simp [landmarkAHP.fromBearingOnlyFrame, qRotV_eq_q2Rv]
  · ext <;>
      simp [landmarkAHP.fromBearingOnlyFrame, idFrame, qId, qRotV, qProd, qConj, norm3]

/-- Claim C3: `toBearingOnlyFrame (s, ahp)` returns
`Rᵗ(q_s)·(m - (t_s - p0)·rho)`, and the `invDist` overload additionally
returns `rho / norm (m - (t_s - p0)·rho)`, for every unit-quaternion frame. -/
theorem toBearingOnlyFrame_spec (s : Frame) (l : Ahp) (_hq : qnorm2 s.q = 1) :
    landmarkAHP.toBearingOnlyFrame s l = q2RTv s.q (l.m - l.rho • (s.t - l.p0)) ∧
      landmarkAHP.toBearingOnlyFrameID s l
        = (q2RTv s.q (l.m - l.rho • (s.t - l.p0)),
           l.rho / norm3 (l.m - l.rho • (s.t - l.p0))) := by
  refine ⟨?_, ?_⟩ <;>
    simp [landmarkAHP.toBearingOnlyFrame, landmarkAHP.toBearingOnlyFrameID,
      qRotVInv_eq_q2RTv]

/-- Witness for C3 at the identity frame and the state `[0,0,0, 0,0,1, 1/2]`. -/
theorem toBearingOnlyFrame_spec_witness :
    qnorm2 idFrame.q = 1 ∧
      (landmarkAHP.toBearingOnlyFrame idFrame ⟨⟨0, 0, 0⟩, ⟨0, 0, 1⟩, 1 / 2⟩
          = q2RTv idFrame.q
              ((⟨0, 0, 1⟩ : Vec3) - (1 / 2 : ℝ) • (idFrame.t - ⟨0, 0, 0⟩)) ∧
        landmarkAHP.toBearingOnlyFrameID idFrame ⟨⟨0, 0, 0⟩, ⟨0, 0, 1⟩, 1 / 2⟩
          = (q2RTv idFrame.q
               ((⟨0, 0, 1⟩ : Vec3) - (1 / 2 : ℝ) • (idFrame.t - ⟨0, 0, 0⟩)),
             (1 / 2 : ℝ) / norm3
               ((⟨0, 0, 1⟩ : Vec3) - (1 / 2 : ℝ) • (idFrame.t - ⟨0, 0, 0⟩)))) :=
  ⟨by norm_num [qnorm2, idFrame, qId],
    toBearingOnlyFrame_spec idFrame ⟨⟨0, 0, 0⟩, ⟨0, 0, 1⟩, 1 / 2⟩
      (by norm_num [qnorm2, idFrame, qId])⟩

/-- Claim C4: for every AHP state with `rho > 0`, `toEuclidean` returns
`p0 + m/rho`; at `[0,0,0, 0,0,1, 1/2]` it returns `[0,0,2]`. -/
theorem ahp2euc_spec (l : Ahp) (hrho : 0 < l.rho) :
    ahp2euc l = some ⟨l.p0.x + l.m.x / l.rho, l.p0.y + l.m.y / l.rho,
        l.p0.z + l.m.z / l.rho⟩ ∧
      ahp2euc ⟨⟨0, 0, 0⟩, ⟨0, 0, 1⟩, 1 / 2⟩ = some ⟨0, 0, 2⟩ := by
  constructor
  · simp [ahp2euc, ahp2eucVal, hrho.ne']
  · norm_num [ahp2euc, ahp2eucVal]

/-- Witness for C4 at the state `[0,0,0, 0,0,1, 1/2]`. -/
theorem ahp2euc_spec_witness :
    (0 : ℝ) < 1 / 2 ∧
      (ahp2euc ⟨⟨0, 0, 0⟩, ⟨0, 0, 1⟩, 1 / 2⟩
          = some ⟨(0 : ℝ) + 0 / (1 / 2), (0 : ℝ) + 0 / (1 / 2), (0 : ℝ) + 1 / (1 / 2)⟩ ∧
        ahp2euc ⟨⟨0, 0, 0⟩, ⟨0, 0, 1⟩, 1 / 2⟩ = some ⟨0, 0, 2⟩) :=
  ⟨by norm_num, ahp2euc_spec ⟨⟨0, 0, 0⟩, ⟨0, 0, 1⟩, 1 / 2⟩ (by norm_num)⟩

/-- Claim C5: for every AHP state with `rho = 0`, `toEuclidean` signals the
distinct `SingularDepth` failure (modelled as `none`) and never returns a
finite value. -/
theorem ahp2euc_singular (l : Ahp) (hrho : l.rho = 0) :
    ahp2euc l = none ∧ ∀ p : Vec3, ahp2euc l ≠ some p := by
  refine ⟨by simp [ahp2euc, hrho], fun p => by simp [ahp2euc, hrho]⟩

/-- Witness for C5 at the state `[0,0,0, 0,0,1, 0]`. -/
theorem ahp2euc_singular_witness :
    (Ahp.mk ⟨0, 0, 0⟩ ⟨0, 0, 1⟩ 0).rho = 0 ∧
      (ahp2euc ⟨⟨0, 0, 0⟩, ⟨0, 0, 1⟩, 0⟩ = none ∧
        ∀ p : Vec3, ahp2euc ⟨⟨0, 0, 0⟩, ⟨0, 0, 1⟩, 0⟩ ≠ some p) :=
  ⟨rfl, ahp2euc_singular ⟨⟨0, 0, 0⟩, ⟨0, 0, 1⟩, 0⟩ rfl⟩

/-- A nonzero 3-vector has a strictly positive norm. -/
lemma norm3_pos (v : Vec3) (hv : v ≠ (⟨0, 0, 0⟩ : Vec3)) : 0 < norm3 v := by
  have hsum : 0 < v.x ^ 2 + v.y ^ 2 + v.z ^ 2 := by
    rcases lt_or_eq_of_le (by positivity : (0 : ℝ) ≤ v.x ^ 2 + v.y ^ 2 + v.z ^ 2) with h | h
    · exact h
    · exfalso
      apply hv
      have hx : v.x = 0 := by nlinarith [sq_nonneg v.x, sq_nonneg v.y, sq_nonneg v.z]
      have hy : v.y = 0 := by nlinarith [sq_nonneg v.x, sq_nonneg v.y, sq_nonneg v.z]
      have hz : v.z = 0 := by nlinarith [sq_nonneg v.x, sq_nonneg v.y, sq_nonneg v.z]
      ext <;> assumption
  exact Real.sqrt_pos.mpr hsum

/-- Claim C6: at the identity sensor frame, projecting the retro-projected
landmark back to the sensor gives a direction parallel to `v` (in fact `v`
itself) and recovers `invDist = rho`, for every nonzero `v` and `rho > 0`. -/
theorem bearing_roundtrip_id (v : Vec3) (rho : ℝ)
    (hv : v ≠ (⟨0, 0, 0⟩ : Vec3)) (_hrho : 0 < rho) :
    (landmarkAHP.toBearingOnlyFrameID idFrame
        (landmarkAHP.fromBearingOnlyFrame idFrame v rho)).1 = v ∧
      (landmarkAHP.toBearingOnlyFrameID idFrame
        (landmarkAHP.fromBearingOnlyFrame idFrame v rho)).2 = rho := by
  have hn : norm3 v ≠ 0 := (norm3_pos v hv).ne'
  have hm : qRotV qId v = v := by
    ext <;> simp [qRotV, qProd, qConj, qId]
  have harg :
      qRotV qId v - (rho * norm3 v) • (Vec3.mk 0 0 0 - Vec3.mk 0 0 0) = v := by
    rw [hm]; ext <;> simp
  constructor
  · show qRotVInv idFrame.q _ = v
    simp only [landmarkAHP.fromBearingOnlyFrame, idFrame, harg]
    ext <;> simp [qRotVInv, qRotV, qProd, qConj, qId]
  · show _ / norm3 _ = rho
    simp only [landmarkAHP.fromBearingOnlyFrame, idFrame, harg]
    field_simp

/-- Witness for C6 at `v = [0,0,1]`, `rho = 1/2`. -/
theorem bearing_roundtrip_id_witness :
    (⟨0, 0, 1⟩ : Vec3) ≠ (⟨0, 0, 0⟩ : Vec3) ∧ (0 : ℝ) < 1 / 2 ∧
      ((landmarkAHP.toBearingOnlyFrameID idFrame
          (landmarkAHP.fromBearingOnlyFrame idFrame ⟨0, 0, 1⟩ (1 / 2))).1
            = (⟨0, 0, 1⟩ : Vec3) ∧
        (landmarkAHP.toBearingOnlyFrameID idFrame
          (landmarkAHP.fromBearingOnlyFrame idFrame ⟨0, 0, 1⟩ (1 / 2))).2 = 1 / 2) :=
  ⟨by intro h; rw [Vec3.ext_iff] at h; norm_num at h, by norm_num,
    bearing_roundtrip_id ⟨0, 0, 1⟩ (1 / 2)
      (by intro h; rw [Vec3.ext_iff] at h; norm_num at h) (by norm_num)⟩

/-- Horizontal concatenation of a 3-row-segment and a 4-row-segment into one
row of a 3+4-column Jacobian. -/
def hcat34 (a : Fin 3 → ℝ) (b : Fin 4 → ℝ) : Fin 7 → ℝ := Fin.append a b

/-- The rotation matrix `R(q)`, entrywise. -/
def q2R (q : Quat) : Fin 3 → Fin 3 → ℝ :=
  ![![q.w ^ 2 + q.x ^ 2 - q.y ^ 2 - q.z ^ 2, 2 * (q.x * q.y - q.w * q.z),
      2 * (q.x * q.z + q.w * q.y)],
    ![2 * (q.x * q.y + q.w * q.z), q.w ^ 2 - q.x ^ 2 + q.y ^ 2 - q.z ^ 2,
      2 * (q.y * q.z - q.w * q.x)],
    ![2 * (q.x * q.z - q.w * q.y), 2 * (q.y * q.z + q.w * q.x),
      q.w ^ 2 - q.x ^ 2 - q.y ^ 2 + q.z ^ 2]]

/-- The transposed rotation matrix `Rᵗ(q)`, entrywise. -/
def q2RT (q : Quat) : Fin 3 → Fin 3 → ℝ := fun i j => q2R q j i

/-- The analytic Jacobian `∂(R(q)·u)/∂q` (3×4), entrywise. -/
def vJq (q : Quat) (u : Vec3) : Fin 3 → Fin 4 → ℝ :=
  ![![2 * (q.w * u.x - q.z * u.y + q.y * u.z), 2 * (q.x * u.x + q.y * u.y + q.z * u.z),
      2 * (-q.y * u.x + q.x * u.y + q.w * u.z), 2 * (-q.z * u.x - q.w * u.y + q.x * u.z)],
    ![2 * (q.z * u.x + q.w * u.y - q.x * u.z), 2 * (q.y * u.x - q.x * u.y - q.w * u.z),
      2 * (q.x * u.x + q.y * u.y + q.z * u.z), 2 * (q.w * u.x - q.z * u.y + q.y * u.z)],
    ![2 * (-q.y * u.x + q.x * u.y + q.w * u.z), 2 * (q.z * u.x + q.w * u.y - q.x * u.z),
      2 * (-q.w * u.x + q.z * u.y - q.y * u.z), 2 * (q.x * u.x + q.y * u.y + q.z * u.z)]]

/-- The analytic Jacobian `∂(Rᵗ(q)·u)/∂q` (3×4): chain rule through the
conjugate, negating the columns of the three imaginary parts. -/
def vJqConj (q : Quat) (u : Vec3) : Fin 3 → Fin 4 → ℝ :=
  fun i j => (if j = 0 then 1 else -1) * vJq (qConj q) u i j

/-- Modelled from the spec: the Jacobian-producing `landmarkAHP::fromFrame`
overload (absent from src/): same value formula, in rotation-matrix form,
plus the analytic Jacobians `AHP_f` (7×7 wrt the frame) and `AHP_ahpf`
(7×7 wrt the landmark). -/
def landmarkAHP.fromFrameJ (F : Frame) (l : Ahp) :
    Ahp × (Fin 7 → Fin 7 → ℝ) × (Fin 7 → Fin 7 → ℝ) :=
  (⟨F.t + q2Rv F.q l.p0, q2Rv F.q l.m, l.rho⟩,
   ![hcat34 ![1, 0, 0] (vJq F.q l.p0 0),
     hcat34 ![0, 1, 0] (vJq F.q l.p0 1),
     hcat34 ![0, 0, 1] (vJq F.q l.p0 2),
     hcat34 ![0, 0, 0] (vJq F.q l.m 0),
     hcat34 ![0, 0, 0] (vJq F.q l.m 1),
     hcat34 ![0, 0, 0] (vJq F.q l.m 2),
     ![0, 0, 0, 0, 0, 0, 0]],
   ![![q2R F.q 0 0, q2R F.q 0 1, q2R F.q 0 2, 0, 0, 0, 0],
     ![q2R F.q 1 0, q2R F.q 1 1, q2R F.q 1 2, 0, 0, 0, 0],
     ![q2R F.q 2 0, q2R F.q 2 1, q2R F.q 2 2, 0, 0, 0, 0],
     ![0, 0, 0, q2R F.q 0 0, q2R F.q 0 1, q2R F.q 0 2, 0],
     ![0, 0, 0, q2R F.q 1 0, q2R F.q 1 1, q2R F.q 1 2, 0],
     ![0, 0, 0, q2R F.q 2 0, q2R F.q 2 1, q2R F.q 2 2, 0],
     ![0, 0, 0, 0, 0, 0, 1]])

/-- Modelled from the spec: the Jacobian-producing `landmarkAHP::toFrame`
overload (absent from src/): same value formula, in rotation-matrix form,
plus the analytic Jacobians `AHPF_f` and `AHPF_ahp` (both 7×7). -/
def landmarkAHP.toFrameJ (F : Frame) (l : Ahp) :
    Ahp × (Fin 7 → Fin 7 → ℝ) × (Fin 7 → Fin 7 → ℝ) :=
  (⟨q2RTv F.q (l.p0 - F.t), q2RTv F.q l.m, l.rho⟩,
   ![hcat34 ![-q2RT F.q 0 0, -q2RT F.q 0 1, -q2RT F.q 0 2] (vJqConj F.q (l.p0 - F.t) 0),
     hcat34 ![-q2RT F.q 1 0, -q2RT F.q 1 1, -q2RT F.q 1 2] (vJqConj F.q (l.p0 - F.t) 1),
     hcat34 ![-q2RT F.q 2 0, -q2RT F.q 2 1, -q2RT F.q 2 2] (vJqConj F.q (l.p0 - F.t) 2),
     hcat34 ![0, 0, 0] (vJqConj F.q l.m 0),
     hcat34 ![0, 0, 0] (vJqConj F.q l.m 1),
     hcat34 ![0, 0, 0] (vJqConj F.q l.m 2),
     ![0, 0, 0, 0, 0, 0, 0]],
   ![![q2RT F.q 0 0, q2RT F.q 0 1, q2RT F.q 0 2, 0, 0, 0, 0],
     ![q2RT F.q 1 0, q2RT F.q 1 1, q2RT F.q 1 2, 0, 0, 0, 0],
     ![q2RT F.q 2 0, q2RT F.q 2 1, q2RT F.q 2 2, 0, 0, 0, 0],
     ![0, 0, 0, q2RT F.q 0 0, q2RT F.q 0 1, q2RT F.q 0 2, 0],
     ![0, 0, 0, q2RT F.q 1 0, q2RT F.q 1 1, q2RT F.q 1 2, 0],
     ![0, 0, 0, q2RT F.q 2 0, q2RT F.q 2 1, q2RT F.q 2 2, 0],
     ![0, 0, 0, 0, 0, 0, 1]])

/-- The analytic Jacobian `∂p3/∂ahp = [ I | (1/rho)·I | -m/rho² ]` (3×7) of
the Euclidean conversion. -/
def EUC_ahp (l : Ahp) : Fin 3 → Fin 7 → ℝ :=
  ![![1, 0, 0, 1 / l.rho, 0, 0, -(l.m.x / l.rho ^ 2)],
    ![0, 1, 0, 0, 1 / l.rho, 0, -(l.m.y / l.rho ^ 2)],
    ![0, 0, 1, 0, 0, 1 / l.rho, -(l.m.z / l.rho ^ 2)]]

/-- Modelled from the spec: the Jacobian-producing `toEuclidean` overload
(header lines 114–117, implementation absent from src/): same value as the
value-only conversion plus the analytic Jacobian `EUC_ahp`. -/
def ahp2eucJ (l : Ahp) : Option Vec3 × (Fin 3 → Fin 7 → ℝ) :=
  (ahp2euc l, EUC_ahp l)

/-- Modelled from the spec: the Jacobian-producing
`landmarkAHP::toBearingOnlyFrame` overload (absent from src/): same value
and inverse distance, in rotation-matrix form, plus the analytic Jacobians
`V_s` and `V_ahp` (both 3×7). -/
def landmarkAHP.toBearingOnlyFrameJ (s : Frame) (l : Ahp) :
    (Vec3 × ℝ) × (Fin 3 → Fin 7 → ℝ) × (Fin 3 → Fin 7 → ℝ) :=
  ((q2RTv s.q (l.m - l.rho • (s.t - l.p0)),
    l.rho / norm3 (l.m - l.rho • (s.t - l.p0))),
   ![hcat34 ![-l.rho * q2RT s.q 0 0, -l.rho * q2RT s.q 0 1, -l.rho * q2RT s.q 0 2]
       (vJqConj s.q (l.m - l.rho • (s.t - l.p0)) 0),
     hcat34 ![-l.rho * q2RT s.q 1 0, -l.rho * q2RT s.q 1 1, -l.rho * q2RT s.q 1 2]
       (vJqConj s.q (l.m - l.rho • (s.t - l.p0)) 1),
     hcat34 ![-l.rho * q2RT s.q 2 0, -l.rho * q2RT s.q 2 1, -l.rho * q2RT s.q 2 2]
       (vJqConj s.q (l.m - l.rho • (s.t - l.p0)) 2)],
   ![![l.rho * q2RT s.q 0 0, l.rho * q2RT s.q 0 1, l.rho * q2RT s.q 0 2,
       q2RT s.q 0 0, q2RT s.q 0 1, q2RT s.q 0 2, (q2RTv s.q (l.p0 - s.t)).x],
     ![l.rho * q2RT s.q 1 0, l.rho * q2RT s.q 1 1, l.rho * q2RT s.q 1 2,
       q2RT s.q 1 0, q2RT s.q 1 1, q2RT s.q 1 2, (q2RTv s.q (l.p0 - s.t)).y],
     ![l.rho * q2RT s.q 2 0, l.rho * q2RT s.q 2 1, l.rho * q2RT s.q 2 2,
       q2RT s.q 2 0, q2RT s.q 2 1, q2RT s.q 2 2, (q2RTv s.q (l.p0 - s.t)).z]])

/-- Modelled from the spec: the Jacobian-producing
`landmarkAHP::fromBearingOnlyFrame` overload (absent from src/): same value,
in rotation-matrix form, plus the analytic Jacobians `AHP_s` (7×7),
`AHP_v` (7×3) and `AHP_rho` (7×1). -/
def landmarkAHP.fromBearingOnlyFrameJ (s : Frame) (v : Vec3) (rho : ℝ) :
    Ahp × (Fin 7 → Fin 7 → ℝ) × (Fin 7 → Fin 3 → ℝ) × (Fin 7 → ℝ) :=
  (⟨s.t, q2Rv s.q v, rho * norm3 v⟩,
   ![hcat34 ![1, 0, 0] ![0, 0, 0, 0],
     hcat34 ![0, 1, 0] ![0, 0, 0, 0],
     hcat34 ![0, 0, 1] ![0, 0, 0, 0],
     hcat34 ![0, 0, 0] (vJq s.q v 0),
     hcat34 ![0, 0, 0] (vJq s.q v 1),
     hcat34 ![0, 0, 0] (vJq s.q v 2),
     ![0, 0, 0, 0, 0, 0, 0]],
   ![![0, 0, 0], ![0, 0, 0], ![0, 0, 0],
     ![q2R s.q 0 0, q2R s.q 0 1, q2R s.q 0 2],
     ![q2R s.q 1 0, q2R s.q 1 1, q2R s.q 1 2],
     ![q2R s.q 2 0, q2R s.q 2 1, q2R s.q 2 2],
     ![rho * v.x / norm3 v, rho * v.y / norm3 v, rho * v.z / norm3 v]],
   ![0, 0, 0, 0, 0, 0, norm3 v])

/-- Claim C7: for each transform pair, the value computed by the value-only
variant equals the value the value+Jacobian variant writes, for every
input. -/
theorem value_variants_agree :
    (∀ (F : Frame) (l : Ahp),
        (landmarkAHP.fromFrameJ F l).1 = landmarkAHP.fromFrame F l) ∧
      (∀ (F : Frame) (l : Ahp),
        (landmarkAHP.toFrameJ F l).1 = landmarkAHP.toFrame F l) ∧
      (∀ l : Ahp, (ahp2eucJ l).1 = ahp2euc l) ∧
      (∀ (s : Frame) (l : Ahp),
        (landmarkAHP.toBearingOnlyFrameJ s l).1.1
            = landmarkAHP.toBearingOnlyFrame s l ∧
          (landmarkAHP.toBearingOnlyFrameJ s l).1.2
            = (landmarkAHP.toBearingOnlyFrameID s l).2) ∧
      (∀ (s : Frame) (v : Vec3) (rho : ℝ),
        (landmarkAHP.fromBearingOnlyFrameJ s v rho).1
          = landmarkAHP.fromBearingOnlyFrame s v rho) := by
  refine ⟨fun F l => ?_, fun F l => ?_, fun l => rfl, fun s l => ⟨?_, rfl⟩,
    fun s v rho => ?_⟩
  · show Ahp.mk _ _ _ = _
    rw [landmarkAHP.fromFrame, qRotV_eq_q2Rv, qRotV_eq_q2Rv]
  · show Ahp.mk _ _ _ = _
    rw [landmarkAHP.toFrame, qRotVInv_eq_q2RTv, qRotVInv_eq_q2RTv]
  · show q2RTv _ _ = _
    rw [landmarkAHP.toBearingOnlyFrame, qRotVInv_eq_q2RTv]
  · show Ahp.mk _ _ _ = _
    rw [landmarkAHP.fromBearingOnlyFrame, qRotV_eq_q2Rv]


/-- Entry 5 of a 7-entry vector literal. -/
@[simp] lemma vec7_val_five {α : Type} (x0 x1 x2 x3 x4 x5 x6 : α) :
    (![x0, x1, x2, x3, x4, x5, x6]) 5 = x5 := rfl

/-- Entry 6 of a 7-entry vector literal. -/
@[simp] lemma vec7_val_six {α : Type} (x0 x1 x2 x3 x4 x5 x6 : α) :
    (![x0, x1, x2, x3, x4, x5, x6]) 6 = x6 := rfl

/-- The AHP landmark object of the header: it holds (a view of) the
7-scalar state block `state.x()` owned by the map. Each member operation
below models the corresponding C++ member (header lines 43–231): it reads
`state` and returns its outputs together with the post-call object. -/
structure LandmarkAnchoredHomogeneousPoint where
  state : Ahp

/-- Header line 43: `static size_t size(void) { return 7; }`. -/
def LandmarkAnchoredHomogeneousPoint.size : ℕ := 7

/-- Member `fromFrame` (header lines 54–57): dispatches to
`landmarkAHP::fromFrame(F, state.x())`, reading the state only. -/
def LandmarkAnchoredHomogeneousPoint.fromFrame
    (lm : LandmarkAnchoredHomogeneousPoint) (F : Frame) :
    Ahp × LandmarkAnchoredHomogeneousPoint :=
  (landmarkAHP.fromFrame F lm.state, lm)

/-- Member `fromFrame` with Jacobians (header lines 68–71). -/
def LandmarkAnchoredHomogeneousPoint.fromFrameJ
    (lm : LandmarkAnchoredHomogeneousPoint) (F : Frame) :
    (Ahp × (Fin 7 → Fin 7 → ℝ) × (Fin 7 → Fin 7 → ℝ)) ×
      LandmarkAnchoredHomogeneousPoint :=
  (landmarkAHP.fromFrameJ F lm.state, lm)

/-- Member `toFrame` (header lines 80–83). -/
def LandmarkAnchoredHomogeneousPoint.toFrame
    (lm : LandmarkAnchoredHomogeneousPoint) (F : Frame) :
    Ahp × LandmarkAnchoredHomogeneousPoint :=
  (landmarkAHP.toFrame F lm.state, lm)

/-- Member `toFrame` with Jacobians (header lines 94–97). -/
def LandmarkAnchoredHomogeneousPoint.toFrameJ
    (lm : LandmarkAnchoredHomogeneousPoint) (F : Frame) :
    (Ahp × (Fin 7 → Fin 7 → ℝ) × (Fin 7 → Fin 7 → ℝ)) ×
      LandmarkAnchoredHomogeneousPoint :=
  (landmarkAHP.toFrameJ F lm.state, lm)

/-- Member `toEuclidean` (header line 105). -/
def LandmarkAnchoredHomogeneousPoint.toEuclidean
    (lm : LandmarkAnchoredHomogeneousPoint) :
    Option Vec3 × LandmarkAnchoredHomogeneousPoint :=
  (ahp2euc lm.state, lm)

/-- Member `toEuclidean` with Jacobian (header lines 114–117). -/
def LandmarkAnchoredHomogeneousPoint.toEuclideanJ
    (lm : LandmarkAnchoredHomogeneousPoint) :
    (Option Vec3 × (Fin 3 → Fin 7 → ℝ)) × LandmarkAnchoredHomogeneousPoint :=
  (ahp2eucJ lm.state, lm)

/-- Member `toBearingOnlyFrame` (header lines 135–138). -/
def LandmarkAnchoredHomogeneousPoint.toBearingOnlyFrame
    (lm : LandmarkAnchoredHomogeneousPoint) (s : Frame) :
    Vec3 × LandmarkAnchoredHomogeneousPoint :=
  (landmarkAHP.toBearingOnlyFrame s lm.state, lm)

/-- Member `toBearingOnlyFrame` with inverse distance (header lines 159–162). -/
def LandmarkAnchoredHomogeneousPoint.toBearingOnlyFrameID
    (lm : LandmarkAnchoredHomogeneousPoint) (s : Frame) :
    (Vec3 × ℝ) × LandmarkAnchoredHomogeneousPoint :=
  (landmarkAHP.toBearingOnlyFrameID s lm.state, lm)

/-- Member `toBearingOnlyFrame` with Jacobians (header lines 185–188). -/
def LandmarkAnchoredHomogeneousPoint.toBearingOnlyFrameJ
    (lm : LandmarkAnchoredHomogeneousPoint) (s : Frame) :
    ((Vec3 × ℝ) × (Fin 3 → Fin 7 → ℝ) × (Fin 3 → Fin 7 → ℝ)) ×
      LandmarkAnchoredHomogeneousPoint :=
  (landmarkAHP.toBearingOnlyFrameJ s lm.state, lm)

/-- Claim C9: every transform member of the AHP landmark — `fromFrame`,
`toFrame`, `toEuclidean` and `toBearingOnlyFrame`, value-only and Jacobian
variants alike — leaves the landmark's 7-scalar state block, and in
particular the anchor `p0`, unchanged. -/
theorem members_leave_state_unchanged
    (lm : LandmarkAnchoredHomogeneousPoint) (F s : Frame) :
    ((lm.fromFrame F).2 = lm ∧ (lm.fromFrameJ F).2 = lm) ∧
      ((lm.toFrame F).2 = lm ∧ (lm.toFrameJ F).2 = lm) ∧
      (lm.toEuclidean.2 = lm ∧ lm.toEuclideanJ.2 = lm) ∧
      ((lm.toBearingOnlyFrame s).2 = lm ∧ (lm.toBearingOnlyFrameID s).2 = lm ∧
        (lm.toBearingOnlyFrameJ s).2 = lm) ∧
      ((lm.fromFrame F).2.state.p0 = lm.state.p0 ∧
        (lm.toFrame F).2.state.p0 = lm.state.p0 ∧
        lm.toEuclidean.2.state.p0 = lm.state.p0 ∧
        (lm.toBearingOnlyFrame s).2.state.p0 = lm.state.p0) :=
  ⟨⟨rfl, rfl⟩, ⟨rfl, rfl⟩, ⟨rfl, rfl⟩, ⟨rfl, rfl, rfl⟩, rfl, rfl, rfl, rfl⟩

/-- Claim C10: `size()` of the AHP landmark variant is `7`, a constant of
the variant, independent of the landmark instance and its state values. -/
theorem ahp_size_is_seven :
    LandmarkAnchoredHomogeneousPoint.size = 7 ∧
      ∀ _lm : LandmarkAnchoredHomogeneousPoint,
        LandmarkAnchoredHomogeneousPoint.size = 7 :=
  ⟨rfl, fun _ => rfl⟩
